import Mathlib

/-!
Verification of the partition-table tooling: a shallow embedding of
`generatePartTable.py` (the Table Generator) and `cleanPartition.py`
(the Partition Eraser), with theorems settling the specified properties.

Conventions of the embedding:
* CSV rows are modelled structurally.  An `Offset`/`Size` field that is the
  empty string (falsy in Python, "unset" in the table format) is `none`; a
  well-formed hexadecimal field `0x...` with value `v` is `some v`.
* Python exceptions that the scripts raise and catch are modelled with
  `Except`/`Option`; `sys.exit(n)` becomes an explicit exit code in the
  result record.
* Python arbitrary-precision integers are `Int`.  Python `%` on integers
  returns a remainder with the sign of the divisor, which for the positive
  divisor 4096 coincides with `Int.emod` (the `%` of Lean `Int`).
* The expression `x & ~0xFFF` of the source clears the low 12 bits of the
  arbitrary-precision integer `x` (Python `~0xFFF == -0x1000`, and `&` acts
  on the infinite twos-complement representation), i.e. it rounds `x` toward
  negative infinity to a multiple of 4096; this is `x - x % 4096` with the
  Euclidean remainder.
* The float expression `int(firmware_size_bytes * (tolerance_percentage / 100))`
  of the generator is modelled by the exact floor
  `firmware_size_bytes * tolerance_percentage / 100` in `Nat`.
-/

/-- One row of the partition table as read by `parse_csv` of
`cleanPartition.py` (a CSV `DictReader` row).  Only the columns the scripts
access are modelled: `#Name`, `Offset`, `Size`.  The `Type`, `SubType` and
`Flags` columns are opaque strings never read by the arithmetic and are
elided.  `none` models the empty string field, `some v` a hexadecimal field
of value `v` (the table format documents non-empty fields as `0x`-prefixed
hexadecimal, hence non-negative). -/
structure PartitionEntry where
  name : String
  offset : Option Nat
  size : Option Nat
deriving DecidableEq

/-- Accumulator loop of `calculate_partition_offset` of `cleanPartition.py`:
walk the rows in order; on the first row whose `#Name` equals the target
return the accumulator; otherwise add the row Size if non-empty, then
independently add the row Offset if non-empty (`int(field, 16)` on the
hexadecimal field).  When the list is exhausted the source raises
`ValueError(partition_name + " partition not found in the CSV file")`. -/
def calcOffsetGo (partition_name : String) : List PartitionEntry → Nat → Except String Nat
  | [], _ => .error (partition_name ++ " partition not found in the CSV file")
  | p :: ps, offset =>
    if p.name == partition_name then
      .ok offset
    else
      let o1 := match p.size with
        | some s => offset + s
        | none => offset
      let o2 := match p.offset with
        | some o => o1 + o
        | none => o1
      calcOffsetGo partition_name ps o2

/-- The function `calculate_partition_offset(partitions, partition_name)` of
`cleanPartition.py`, offset accumulator initialized to 0. -/
def calculate_partition_offset (partitions : List PartitionEntry) (partition_name : String) :
    Except String Nat :=
  calcOffsetGo partition_name partitions 0

/-- Size resolution of `main` of `cleanPartition.py`, line
`partition_size = int(next(partition[Size] for partition in partitions if partition[#Name] == partition_name), 16)`:
the Size field of the first row matching the target, parsed as hexadecimal.
Returns `none` when that field is the empty string, in which case the source
raises `ValueError` from `int("", 16)` (the no-match case of `next`, a
`StopIteration`, is unreachable in `main` because offset resolution has
already succeeded). -/
def target_size (partitions : List PartitionEntry) (partition_name : String) : Option Nat :=
  (partitions.find? fun p => p.name == partition_name).bind fun p => p.size

/-- Message of the `ValueError` that Python `int("", 16)` raises when the
Size field of the matching row is the empty string. -/
def int_empty_error : String := "invalid literal for int() with base 16: \x27\x27"

/-- Outcome of one invocation of the external `dd` process by
`clear_partition`: its return code, its standard error, and the contents of
the binary file after the invocation.  The `dd` primitive itself is external
to the scripts, so a run of the Eraser is parameterized by this outcome. -/
structure DdOutcome where
  returncode : Int
  stderr : String
  image : List Nat
deriving DecidableEq

/-- The command line built by `clear_partition` of `cleanPartition.py`,
joined with spaces exactly as the `print` of the source does. -/
def dd_command (binary_file : String) (offset size : Nat) : String :=
  "dd if=/dev/zero of=" ++ binary_file ++ " bs=1 seek=" ++ toString offset ++
    " count=" ++ toString size ++ " conv=notrunc"

/-- The function `clear_partition(binary_file, offset, size)` of
`cleanPartition.py`, parameterized by the behavior `dd` of the external
process: it prints the command, runs `dd`, and on non-zero return code
prints the error message — but falls through normally in both branches
(no `sys.exit` here).  Result: the printed messages and the file contents
after the call. -/
def clear_partition (binary_file : String) (offset size : Nat)
    (dd : Nat → Nat → DdOutcome) : List String × List Nat :=
  let result := dd offset size
  let msgs := ["Executing command: " ++ dd_command binary_file offset size]
  if result.returncode ≠ 0 then
    (msgs ++ ["Error executing dd: " ++ result.stderr], result.image)
  else
    (msgs ++ ["NVS partition cleared successfully"], result.image)

/-- Observable result of one run of the Eraser script: process exit code,
final contents of the binary image, and the printed messages. -/
structure RunResult where
  exitCode : Nat
  image : List Nat
  messages : List String
deriving DecidableEq

/-- The function `main` of `cleanPartition.py`, after argument handling and
`parse_csv` (the parsed table, the current image contents and the behavior
of the external `dd` are the inputs): resolve the offset, resolve the size,
run `clear_partition`.  A `ValueError` from either resolution is caught,
its message printed, and the process exits 1 with the image untouched
(`dd` was never invoked).  After `clear_partition` returns, `main` falls
through, so the exit code is 0 regardless of the `dd` return code. -/
def cleanMain (partitions : List PartitionEntry) (binary_file partition_name : String)
    (image : List Nat) (dd : Nat → Nat → DdOutcome) : RunResult :=
  match calculate_partition_offset partitions partition_name with
  | .error e => ⟨1, image, [e]⟩
  | .ok partition_offset =>
    match target_size partitions partition_name with
    | none => ⟨1, image, [int_empty_error]⟩
    | some partition_size =>
      let r := clear_partition binary_file partition_offset partition_size dd
      ⟨0, r.2, r.1⟩

/-- Modelled from the spec: the external byte-range zero-fill primitive
(`dd if=/dev/zero of=FILE bs=1 seek=offset count=size conv=notrunc`), whose
implementation is not part of this repository.  Per the spec it overwrites
exactly `size` bytes starting at byte `offset` with zero bytes, without
truncating or resizing the image and without touching bytes outside that
range.  Behavior past the image end is implementation-defined per the spec;
this model stops at the image end, and the theorems only use ranges that lie
within the image.  `zeroFirst` overwrites the first `size` bytes. -/
def zeroFirst : List Nat → Nat → List Nat
  | bs, 0 => bs
  | [], _ + 1 => []
  | _ :: bs, n + 1 => 0 :: zeroFirst bs n

/-- Modelled from the spec: zero-fill of the byte range
`[offset, offset + size)` of the image, skipping the first `offset` bytes
and then overwriting `size` bytes (see `zeroFirst`). -/
def ddZeroFill : List Nat → Nat → Nat → List Nat
  | bs, 0, size => zeroFirst bs size
  | [], _ + 1, _ => []
  | b :: bs, o + 1, size => b :: ddZeroFill bs o size

/-- Sum of the declared Size fields of the rows strictly preceding the first
row whose name matches the target.  This follows the words of the spec
(sequential layout: offsets accumulate the sizes of the preceding entries)
and is compared against the walk of the source. -/
def specSumBefore (partitions : List PartitionEntry) (partition_name : String) : Nat :=
  ((partitions.takeWhile fun p => !(p.name == partition_name)).map
    fun p => p.size.getD 0).sum

/-- Rounding of `generatePartTable.py`: the source expression `v & ~0xFFF`
on a Python arbitrary-precision integer clears the low 12 bits of the
twos-complement representation, i.e. rounds toward negative infinity to a
multiple of 4096.  With the Euclidean remainder (Python `%` for the
positive divisor 4096) this is `v - v % 4096`. -/
def mask4K (v : Int) : Int := v - v % 4096

/-- Line `flash_size_bytes = flash_size_mb * 1024 * 1024` of
`generatePartTable.py`. -/
def flash_size_bytes (flash_size_mb : Nat) : Int := flash_size_mb * 1024 * 1024

/-- Line
`app_partition_size_bytes = (firmware_size_bytes + int(firmware_size_bytes * tolerance_fraction) + 0xFFF) & ~0xFFF`
of `generatePartTable.py`, with `tolerance_fraction = tolerance_percentage / 100`.
The float product truncated by `int(...)` is modelled by the exact floor
`fw * t / 100` in `Nat` (the floor of the spec formula). -/
def app_partition_size_bytes (fw t : Nat) : Int :=
  mask4K ((fw : Int) + ((fw * t / 100 : Nat) : Int) + 0xFFF)

/-- Lines `current_used_flash = coredump_partition_size_bytes + app_partition_offset + nvs_partition_size_bytes`
then `current_used_flash = current_used_flash + app_partition_size_bytes`
of `generatePartTable.py`, with `coredump = 0x10000`, `app_offset = 0x10000`,
`nvs = 0x3000`. -/
def current_used_flash (fw t : Nat) : Int :=
  0x10000 + 0x10000 + 0x3000 + app_partition_size_bytes fw t

/-- Line `spiffs_partition_size_bytes = (flash_size_bytes - current_used_flash - 0xFFF) & ~0xFFF`
of `generatePartTable.py`.  The source performs no sign check on this value. -/
def spiffs_partition_size_bytes (fw t flash_size_mb : Nat) : Int :=
  mask4K (flash_size_bytes flash_size_mb - current_used_flash fw t - 0xFFF)

/-- Contents written to `in/partitions.csv` by `generatePartTable.py`:
either the bundled template `templates/snoititrap-template.csv` copied
verbatim (firmware missing), or the four generated rows
`app,app,factory,0x{app_offset:x},{hex(app_size)},` /
`coredump,data,coredump,,0x{coredump_size:x},` /
`nvs,data,nvs,,0x{nvs_size:x},` /
`littlefs,data,undefined,,{hex(spiffs_size)},` — the constant `Type`,
`SubType` and `Flags` columns are verbatim literals and are elided; the
numeric fields are carried as integers (`hex` of a negative Python integer
renders with a leading minus sign, so a negative size is written as such,
not clamped). -/
inductive PartitionsFile where
  | fallbackTemplate
  | generated (app_offset app_size coredump_size nvs_size spiffs_size : Int)
deriving DecidableEq

/-- Observable result of one run of the Generator script: process exit
code, the partition table file written, the value written to
`in/offset.txt` (as hexadecimal text) if any, the value written to
`in/size.txt` (as decimal text) if any, and the printed messages. -/
structure GeneratorRun where
  exitCode : Nat
  partitionsFile : PartitionsFile
  offsetFile : Option Int
  sizeFile : Option Int
  messages : List String
deriving DecidableEq

/-- Informational message printed by `generatePartTable.py` when the
compiled firmware binary does not exist. -/
def no_firmware_message : String :=
  "There is no firmware.bin file. I\x27m assuming you couldn\x27t compile it because of the partition size. Copying the default partition file and exiting."

/-- The top-level flow of `generatePartTable.py`, after the configuration
read and the external environment discovery (both out of scope per the
spec): inputs are the firmware size in bytes (`none` when
`os.path.exists(firmware_path)` is false), the tolerance percentage and the
flash size in MB.  Firmware missing: copy the template over
`in/partitions.csv`, print the message, `sys.exit(0)` — neither scalar file
is written.  Otherwise: compute the sizes, write `in/offset.txt` and
`in/size.txt`, write the four-row table, print the success message, and end
(exit 0).  The source contains no feasibility check and no non-zero exit on
this path. -/
def generatorMain (firmware : Option Nat) (tolerance_percentage flash_size_mb : Nat) :
    GeneratorRun :=
  match firmware with
  | none => ⟨0, .fallbackTemplate, none, none, [no_firmware_message]⟩
  | some fw =>
    let app := app_partition_size_bytes fw tolerance_percentage
    let used := current_used_flash fw tolerance_percentage
    let spiffs := spiffs_partition_size_bytes fw tolerance_percentage flash_size_mb
    ⟨0, .generated 0x10000 app 0x10000 0x3000 spiffs, some used, some spiffs,
      ["Partition table created successfully."]⟩

/-! Helper lemmas about the offset walk and the zero-fill model. -/

theorem calcOffsetGo_not_found (partition_name : String) (partitions : List PartitionEntry)
    (acc : Nat) (h : ∀ e ∈ partitions, e.name ≠ partition_name) :
    calcOffsetGo partition_name partitions acc =
      .error (partition_name ++ " partition not found in the CSV file") := by
  induction partitions generalizing acc with
  | nil => rfl
  | cons p ps ih =>
    have hp : (p.name == partition_name) = false := by
      simpa using h p (List.mem_cons_self p ps)
    simp only [calcOffsetGo, hp, Bool.false_eq_true, if_false]
    exact ih _ fun e he => h e (List.mem_cons_of_mem p he)

theorem calcOffsetGo_found (partition_name : String) (partitions : List PartitionEntry)
    (acc : Nat) (hmem : ∃ e ∈ partitions, e.name = partition_name) :
    ∃ k, calcOffsetGo partition_name partitions acc = Except.ok k := by
  induction partitions generalizing acc with
  | nil => simp at hmem
  | cons p ps ih =>
    by_cases hp : p.name = partition_name
    · exact ⟨acc, by simp [calcOffsetGo, hp]⟩
    · have hpb : (p.name == partition_name) = false := by simpa using hp
      have hmem' : ∃ e ∈ ps, e.name = partition_name := by
        rcases hmem with ⟨e, he, hname⟩
        rcases List.mem_cons.mp he with rfl | he'
        · exact absurd hname hp
        · exact ⟨e, he', hname⟩
      simp only [calcOffsetGo, hpb, Bool.false_eq_true, if_false]
      exact ih _ hmem'

theorem specSumBefore_cons_match (p : PartitionEntry) (ps : List PartitionEntry)
    (partition_name : String) (h : p.name = partition_name) :
    specSumBefore (p :: ps) partition_name = 0 := by
  simp [specSumBefore, List.takeWhile, h]

theorem specSumBefore_cons_nomatch (p : PartitionEntry) (ps : List PartitionEntry)
    (partition_name : String) (h : p.name ≠ partition_name) :
    specSumBefore (p :: ps) partition_name = p.size.getD 0 + specSumBefore ps partition_name := by
  have hb : (p.name == partition_name) = false := by simpa using h
  simp [specSumBefore, List.takeWhile, hb]

theorem calcOffsetGo_sequential (partition_name : String) (partitions : List PartitionEntry)
    (acc : Nat) (hseq : ∀ e ∈ partitions, e.offset = none)
    (hmem : ∃ e ∈ partitions, e.name = partition_name) :
    calcOffsetGo partition_name partitions acc =
      Except.ok (acc + specSumBefore partitions partition_name) := by
  induction partitions generalizing acc with
  | nil => simp at hmem
  | cons p ps ih =>
    by_cases hp : p.name = partition_name
    · have hpb : (p.name == partition_name) = true := by simpa using hp
      rw [specSumBefore_cons_match p ps partition_name hp]
      simp [calcOffsetGo, hpb]
    · have hpb : (p.name == partition_name) = false := by simpa using hp
      have hoff : p.offset = none := hseq p (List.mem_cons_self p ps)
      have hseq' : ∀ e ∈ ps, e.offset = none := fun e he => hseq e (List.mem_cons_of_mem p he)
      have hmem' : ∃ e ∈ ps, e.name = partition_name := by
        rcases hmem with ⟨e, he, hname⟩
        rcases List.mem_cons.mp he with rfl | he'
        · exact absurd hname hp
        · exact ⟨e, he', hname⟩
      rw [specSumBefore_cons_nomatch p ps partition_name hp]
      cases hsz : p.size with
      | none =>
        simp only [calcOffsetGo, hpb, Bool.false_eq_true, if_false, hsz, hoff]
        rw [ih _ hseq' hmem']
        simp [hsz]
      | some s =>
        simp only [calcOffsetGo, hpb, Bool.false_eq_true, if_false, hsz, hoff]
        rw [ih _ hseq' hmem']
        simp [hsz]
        omega

theorem zeroFirst_eq : ∀ (bs : List Nat) (n : Nat), n ≤ bs.length →
    zeroFirst bs n = List.replicate n 0 ++ bs.drop n
  | _, 0, _ => by simp [zeroFirst]
  | [], n + 1, h => by simp at h
  | b :: bs, n + 1, h => by
    have ih := zeroFirst_eq bs n (by simpa using h)
    simp [zeroFirst, List.replicate_succ, ih]

theorem ddZeroFill_eq : ∀ (bs : List Nat) (offset size : Nat), offset + size ≤ bs.length →
    ddZeroFill bs offset size =
      bs.take offset ++ List.replicate size 0 ++ bs.drop (offset + size)
  | bs, 0, size, h => by
    simp [ddZeroFill, zeroFirst_eq bs size (by simpa using h)]
  | [], o + 1, size, h => by simp at h
  | b :: bs, o + 1, size, h => by
    have ih := ddZeroFill_eq bs o size (by simp at h; omega)
    have harr : o + 1 + size = o + size + 1 := by omega
    rw [harr]
    simp [ddZeroFill, ih]

theorem mask4K_dvd (v : Int) : (4096 : Int) ∣ mask4K v :=
  ⟨v / 4096, by have h := Int.ediv_add_emod v 4096; unfold mask4K; linarith⟩

theorem mask4K_le (v : Int) : mask4K v ≤ v := by
  have h := Int.emod_nonneg v (show (4096 : Int) ≠ 0 by decide)
  unfold mask4K
  linarith

/-! Claim theorems. -/

/-- C1 (code bug evaluation): on a configuration with
`flashCapacityBytes < appOffset + coredumpSize + nvsSize + appSize`
(firmware 0x200000 bytes, tolerance 0, flash 1 MB), the computed filesystem
remainder is negative, yet the Generator still exits 0, writes both scalar
files and emits the partition table with a negative `littlefs` size — it
never fails with an infeasible-capacity error as the claim requires. -/
theorem infeasible_capacity_still_exits_zero :
    flash_size_bytes 1 < current_used_flash 0x200000 0 ∧
    spiffs_partition_size_bytes 0x200000 0 1 < 0 ∧
    generatorMain (some 0x200000) 0 1 =
      ⟨0, .generated 0x10000 0x200000 0x10000 0x3000 (-0x124000), some 0x223000,
        some (-0x124000), ["Partition table created successfully."]⟩ :=
  ⟨by decide, by decide, rfl⟩

/-- C2: in the table `[A(size=10), B(offset=5, size=20)]` followed by an
entry named `C` (and anything after it), resolving `"C"` returns the
accumulated offset 35 = 10 + 5 + 20: a non-matching entry declaring both an
explicit Offset and a Size contributes the sum of both to the accumulator. -/
theorem additive_offset_and_size_resolution (c : PartitionEntry) (rest : List PartitionEntry)
    (hc : c.name = "C") :
    calculate_partition_offset
      (⟨"A", none, some 10⟩ :: ⟨"B", some 5, some 20⟩ :: c :: rest) "C" = Except.ok 35 := by
  obtain ⟨nm, off, sz⟩ := c
  cases hc
  rfl

/-- Witness for C2 at the concrete entry `C(size=30)` and empty tail. -/
theorem additive_offset_and_size_resolution_witness :
    (⟨"C", none, some 30⟩ : PartitionEntry).name = "C" ∧
    calculate_partition_offset
      (⟨"A", none, some 10⟩ :: ⟨"B", some 5, some 20⟩ :: (⟨"C", none, some 30⟩ : PartitionEntry) :: []) "C" =
      Except.ok 35 :=
  ⟨rfl, additive_offset_and_size_resolution ⟨"C", none, some 30⟩ [] rfl⟩

/-- C3: in a table in which every entry has an unset Offset and a declared
Size, resolving a name present in the table returns the sum of the Size
fields of the entries strictly preceding the first matching entry, and the
erase length is that matching entry's own declared Size field. -/
theorem sequential_resolution (partitions : List PartitionEntry) (partition_name : String)
    (hseq : ∀ e ∈ partitions, e.offset = none ∧ e.size ≠ none)
    (hmem : ∃ e ∈ partitions, e.name = partition_name) :
    calculate_partition_offset partitions partition_name =
      Except.ok (specSumBefore partitions partition_name) ∧
    ∀ e, (partitions.find? fun p => p.name == partition_name) = some e →
      target_size partitions partition_name = e.size := by
  constructor
  · have h := calcOffsetGo_sequential partition_name partitions 0
      (fun e he => (hseq e he).1) hmem
    simpa [calculate_partition_offset] using h
  · intro e he
    simp [target_size, he]

/-- Witness for C3 at the table `[A(size=10), B(size=20), C(size=30)]`:
resolving `C` yields offset 30 = 10 + 20 and erase size 30. -/
theorem sequential_resolution_witness :
    (∀ e ∈ [(⟨"A", none, some 10⟩ : PartitionEntry), ⟨"B", none, some 20⟩, ⟨"C", none, some 30⟩],
      e.offset = none ∧ e.size ≠ none) ∧
    (∃ e ∈ [(⟨"A", none, some 10⟩ : PartitionEntry), ⟨"B", none, some 20⟩, ⟨"C", none, some 30⟩],
      e.name = "C") ∧
    specSumBefore [⟨"A", none, some 10⟩, ⟨"B", none, some 20⟩, ⟨"C", none, some 30⟩] "C" = 30 ∧
    target_size [⟨"A", none, some 10⟩, ⟨"B", none, some 20⟩, ⟨"C", none, some 30⟩] "C" = some 30 ∧
    (calculate_partition_offset
        [⟨"A", none, some 10⟩, ⟨"B", none, some 20⟩, ⟨"C", none, some 30⟩] "C" =
      Except.ok (specSumBefore [⟨"A", none, some 10⟩, ⟨"B", none, some 20⟩, ⟨"C", none, some 30⟩] "C") ∧
    ∀ e, ([(⟨"A", none, some 10⟩ : PartitionEntry), ⟨"B", none, some 20⟩, ⟨"C", none, some 30⟩].find?
        fun p => p.name == "C") = some e →
      target_size [⟨"A", none, some 10⟩, ⟨"B", none, some 20⟩, ⟨"C", none, some 30⟩] "C" = e.size) :=
  ⟨by decide, by decide, by decide, by decide,
    sequential_resolution [⟨"A", none, some 10⟩, ⟨"B", none, some 20⟩, ⟨"C", none, some 30⟩] "C"
      (by decide) (by decide)⟩

/-- C4: for every table and every target name matching no entry, the Eraser
exits 1 with the "partition not found" message identifying the requested
name, and the binary image is returned unchanged whatever the external `dd`
would do — `dd` is never invoked on this path. -/
theorem not_found_exits_without_mutation (partitions : List PartitionEntry)
    (binary_file partition_name : String) (image : List Nat) (dd : Nat → Nat → DdOutcome)
    (h : ∀ e ∈ partitions, e.name ≠ partition_name) :
    cleanMain partitions binary_file partition_name image dd =
      ⟨1, image, [partition_name ++ " partition not found in the CSV file"]⟩ := by
  unfold cleanMain calculate_partition_offset
  rw [calcOffsetGo_not_found partition_name partitions 0 h]

/-- Witness for C4: target `nvs` absent from a one-row table. -/
theorem not_found_exits_without_mutation_witness :
    (∀ e ∈ [(⟨"app", some 0x10000, some 0x100000⟩ : PartitionEntry)], e.name ≠ "nvs") ∧
    cleanMain [⟨"app", some 0x10000, some 0x100000⟩] "image.bin" "nvs" [1, 2, 3]
        (fun _ _ => ⟨0, "", []⟩) =
      ⟨1, [1, 2, 3], ["nvs" ++ " partition not found in the CSV file"]⟩ :=
  ⟨by decide,
    not_found_exits_without_mutation [⟨"app", some 0x10000, some 0x100000⟩] "image.bin" "nvs"
      [1, 2, 3] (fun _ _ => ⟨0, "", []⟩) (by decide)⟩

/-- C5 (code bug evaluation): the underlying overwrite fails (`dd` returns 1
with an error on standard error), the Eraser prints the dd error message —
and then exits with status 0, not 1: `clear_partition` only prints on
failure and `main` falls through, so exit status 0 does not imply success. -/
theorem dd_failure_still_exits_zero :
    cleanMain [⟨"nvs", none, some 0x3000⟩] "image.bin" "nvs" [1, 2, 3]
        (fun _ _ => ⟨1, "dd: failed", [1, 2, 3]⟩) =
      ⟨0, [1, 2, 3],
        ["Executing command: " ++ dd_command "image.bin" 0 0x3000,
         "Error executing dd: " ++ "dd: failed"]⟩ := rfl

/-- C6: for every firmware size and tolerance percentage in [0, 100], the
application partition size is a multiple of 4096 and at least the firmware
size. -/
theorem app_partition_size_aligned_and_sufficient (fw t : Nat) (ht : t ≤ 100) :
    (4096 : Int) ∣ app_partition_size_bytes fw t ∧
      (fw : Int) ≤ app_partition_size_bytes fw t := by
  refine ⟨mask4K_dvd _, ?_⟩
  unfold app_partition_size_bytes mask4K
  omega

/-- Witness for C6 at firmware size 4096 and tolerance 50. -/
theorem app_partition_size_aligned_and_sufficient_witness :
    50 ≤ 100 ∧
    ((4096 : Int) ∣ app_partition_size_bytes 4096 50 ∧
      ((4096 : Nat) : Int) ≤ app_partition_size_bytes 4096 50) :=
  ⟨by decide, app_partition_size_aligned_and_sufficient 4096 50 (by decide)⟩

/-- C7: for every configuration whose filesystem remainder is positive, the
filesystem partition size is a multiple of 4096, and the five quantities
`appOffset = 0x10000`, `coredumpSize = 0x10000`, `nvsSize = 0x3000`,
`appSize` and `fsSize` sum to at most the flash capacity in bytes. -/
theorem spiffs_aligned_and_within_capacity (fw t flash_size_mb : Nat)
    (hvalid : 0 < spiffs_partition_size_bytes fw t flash_size_mb) :
    (4096 : Int) ∣ spiffs_partition_size_bytes fw t flash_size_mb ∧
      0x10000 + 0x10000 + 0x3000 + app_partition_size_bytes fw t +
        spiffs_partition_size_bytes fw t flash_size_mb ≤ flash_size_bytes flash_size_mb := by
  refine ⟨mask4K_dvd _, ?_⟩
  have h := mask4K_le (flash_size_bytes flash_size_mb - current_used_flash fw t - 0xFFF)
  unfold spiffs_partition_size_bytes
  unfold current_used_flash at h ⊢
  linarith

/-- Witness for C7 at firmware size 0x100000, tolerance 0, flash 4 MB
(filesystem remainder 0x2DC000 > 0). -/
theorem spiffs_aligned_and_within_capacity_witness :
    0 < spiffs_partition_size_bytes 0x100000 0 4 ∧
    ((4096 : Int) ∣ spiffs_partition_size_bytes 0x100000 0 4 ∧
      0x10000 + 0x10000 + 0x3000 + app_partition_size_bytes 0x100000 0 +
        spiffs_partition_size_bytes 0x100000 0 4 ≤ flash_size_bytes 4) :=
  ⟨by decide, spiffs_aligned_and_within_capacity 0x100000 0 4 (by decide)⟩

/-- C8: when the compiled firmware artifact does not exist, the Generator
exits 0 after writing the bundled fallback template as the partition table
and printing the informational message, and writes neither `in/offset.txt`
nor `in/size.txt`. -/
theorem missing_firmware_fallback (tolerance_percentage flash_size_mb : Nat) :
    generatorMain none tolerance_percentage flash_size_mb =
      ⟨0, .fallbackTemplate, none, none, [no_firmware_message]⟩ := rfl

/-- C9: with the resolved byte range inside the image and the zero-fill
primitive behaving as specified, the erase operation produces exactly the
image with the bytes of `[offset, offset + size)` set to zero: the prefix
and the suffix are unchanged and the length is preserved. -/
theorem erase_zeroes_exact_range (image : List Nat) (binary_file : String) (offset size : Nat)
    (h : offset + size ≤ image.length) :
    (clear_partition binary_file offset size
        (fun o s => ⟨0, "", ddZeroFill image o s⟩)).2 =
      image.take offset ++ List.replicate size 0 ++ image.drop (offset + size) :=
  ddZeroFill_eq image offset size h

/-- Witness for C9 at image `[5, 6, 7, 8]`, offset 1, size 2. -/
theorem erase_zeroes_exact_range_witness :
    1 + 2 ≤ ([5, 6, 7, 8] : List Nat).length ∧
    (clear_partition "image.bin" 1 2
        (fun o s => ⟨0, "", ddZeroFill [5, 6, 7, 8] o s⟩)).2 =
      ([5, 6, 7, 8] : List Nat).take 1 ++ List.replicate 2 0 ++
        ([5, 6, 7, 8] : List Nat).drop (1 + 2) :=
  ⟨by decide, erase_zeroes_exact_range [5, 6, 7, 8] "image.bin" 1 2 (by decide)⟩

/-- C10: when the target name matches an entry whose Size field is unset
(the empty string), offset resolution succeeds but size resolution fails
parsing the empty hexadecimal string; the Eraser prints the `int("", 16)`
error, exits 1, and the image is returned unchanged whatever the external
`dd` would do — `dd` is never invoked. -/
theorem empty_size_field_exits_without_mutation (partitions : List PartitionEntry)
    (binary_file partition_name : String) (image : List Nat) (dd : Nat → Nat → DdOutcome)
    (e : PartitionEntry)
    (hfind : (partitions.find? fun p => p.name == partition_name) = some e)
    (hsize : e.size = none) :
    cleanMain partitions binary_file partition_name image dd =
      ⟨1, image, [int_empty_error]⟩ := by
  have hmem : ∃ a ∈ partitions, a.name = partition_name := by
    refine ⟨e, List.mem_of_find?_eq_some hfind, ?_⟩
    simpa using List.find?_some hfind
  obtain ⟨k, hk⟩ := calcOffsetGo_found partition_name partitions 0 hmem
  have hk' : calculate_partition_offset partitions partition_name = Except.ok k := hk
  have ht : target_size partitions partition_name = none := by
    simp [target_size, hfind, hsize]
  unfold cleanMain
  rw [hk', ht]

/-- Witness for C10: single row `nvs` with empty Size field. -/
theorem empty_size_field_exits_without_mutation_witness :
    ([(⟨"nvs", none, none⟩ : PartitionEntry)].find? fun p => p.name == "nvs") =
      some ⟨"nvs", none, none⟩ ∧
    (⟨"nvs", none, none⟩ : PartitionEntry).size = none ∧
    cleanMain [⟨"nvs", none, none⟩] "image.bin" "nvs" [7, 7]
        (fun _ _ => ⟨0, "", []⟩) =
      ⟨1, [7, 7], [int_empty_error]⟩ :=
  ⟨by decide, rfl,
    empty_size_field_exits_without_mutation [⟨"nvs", none, none⟩] "image.bin" "nvs" [7, 7]
      (fun _ _ => ⟨0, "", []⟩) ⟨"nvs", none, none⟩ (by decide) rfl⟩
